import Mathlib

/-!
Verification of the event-wiring / plugin-installer core of the x-components
repository (src/packages/x-components/src/plugins/x-plugin.ts), via a shallow
embedding in Lean.

JavaScript runtime values are modelled by the inductive type JSValue below.
Objects carry a numeric identity (objId) so that in-place mutation — which the
plugin performs on store-module descriptors and on the reactive config — can be
distinguished from re-allocation in a purely functional translation: a function
that mutates an object in place returns a value with the same objId, while one
that allocates returns a fresh objId.
-/

set_option autoImplicit false

namespace XComponents

/-- Model of a JavaScript runtime value. Objects are association lists of
fields tagged with an allocation identity. -/
inductive JSValue where
  | vUndefined : JSValue
  | vNull : JSValue
  | vBool : Bool → JSValue
  | vNum : Int → JSValue
  | vStr : String → JSValue
  | vObj : Nat → List (String × JSValue) → JSValue

namespace JSValue

/-- JavaScript truthiness: undefined, null, false, 0 and the empty string are
falsy, everything else is truthy. -/
def truthy : JSValue → Bool
  | vUndefined => false
  | vNull => false
  | vBool b => b
  | vNum n => n != 0
  | vStr s => s ≠ ""
  | vObj _ _ => true

/-- Whether a value is an object. -/
def isObj : JSValue → Bool
  | vObj _ _ => true
  | _ => false

/-- The allocation identity of a value (objects only). -/
def objIdOf : JSValue → Option Nat
  | vObj i _ => some i
  | _ => none

end JSValue

/-- First binding of a key in an association list (JS property lookup). JS
objects are modelled as association lists in insertion order. -/
def lookupField {α : Type} (l : List (String × α)) (k : String) : Option α :=
  match l with
  | [] => none
  | (k', v) :: rest => if k' = k then some v else lookupField rest k

/-- JS property write on an association list: replaces the first binding of the
key if present, otherwise appends the new binding (insertion order kept). -/
def setField {α : Type} (l : List (String × α)) (k : String) (v : α) :
    List (String × α) :=
  match l with
  | [] => [(k, v)]
  | (k', v') :: rest =>
    if k' = k then (k', v) :: rest else (k', v') :: setField rest k v

/-- Number of bindings of a key in an association list. -/
def countKey {α : Type} (l : List (String × α)) (k : String) : Nat :=
  (l.filter (fun e => e.1 = k)).length

/-- Reads a field of an object value, yielding undefined when the receiver is
not an object or lacks the field, as JS property access does. -/
def getFieldD (v : JSValue) (k : String) : JSValue :=
  match v with
  | .vObj _ fields => (lookupField fields k).getD .vUndefined
  | _ => .vUndefined

/-- Follows a path of field names through nested objects. -/
def getPath (v : JSValue) : List String → Option JSValue
  | [] => some v
  | k :: rest =>
    match v with
    | .vObj _ fields =>
      match lookupField fields k with
      | some v' => getPath v' rest
      | none => none
    | _ => none

variable {α : Type}

@[simp] theorem lookupField_nil (k : String) :
    lookupField ([] : List (String × α)) k = none := rfl

theorem lookupField_setField_self (l : List (String × α)) (k : String)
    (v : α) : lookupField (setField l k v) k = some v := by
  induction l with
  | nil => simp [setField, lookupField]
  | cons hd tl ih =>
    obtain ⟨k', v'⟩ := hd
    by_cases h : k' = k <;> simp [setField, lookupField, h, ih]

theorem lookupField_setField_other (l : List (String × α)) (k k' : String)
    (v : α) (h : k' ≠ k) :
    lookupField (setField l k v) k' = lookupField l k' := by
  induction l with
  | nil => simp [setField, lookupField, Ne.symm h]
  | cons hd tl ih =>
    obtain ⟨k₀, v₀⟩ := hd
    by_cases h₀ : k₀ = k
    · subst h₀
      simp [setField, lookupField, Ne.symm h]
    · by_cases h₁ : k₀ = k' <;> simp [setField, lookupField, h₀, h₁, h, ih]

/-- When the key is absent, a property write appends the binding at the end. -/
theorem setField_of_not_mem (l : List (String × α)) (k : String)
    (v : α) (h : lookupField l k = none) : setField l k v = l ++ [(k, v)] := by
  induction l with
  | nil => simp [setField]
  | cons hd tl ih =>
    obtain ⟨k', v'⟩ := hd
    by_cases h' : k' = k
    · simp [lookupField, h'] at h
    · simp [lookupField, h'] at h
      simp [setField, h', ih h]

/-! ### Deep merge

The plugin merges configuration with the deepMerge function of the external
package @empathybroker/deep-merge, whose source is not part of this
repository. -/

mutual

/-- Modelled from the spec: the deepMerge helper of the external package
@empathybroker/deep-merge is missing from the sources. Per the spec it
"deep-merges the partial update into the live reactive config object in place
(preserving object identity)", recursing where both sides hold objects, and
"with array-type leaves replaced rather than concatenated"; fields present in
the source overwrite, fields absent from it are preserved. The merged target
keeps its allocation identity. -/
def deepMerge : JSValue → JSValue → JSValue
  | .vObj tid tf, .vObj _ sf => .vObj tid (mergeFields tf sf)
  | _, s => s
termination_by _ s => (sizeOf s, 0)

/-- Merges every source binding into the target field list, in source order. -/
def mergeFields : List (String × JSValue) → List (String × JSValue) →
    List (String × JSValue)
  | tf, [] => tf
  | tf, (k, sv) :: rest =>
    mergeFields (setField tf k (mergeValue (lookupField tf k) sv)) rest
termination_by _ sf => (sizeOf sf, 2)

/-- Merge of one source value over the (possibly absent) target value of the
same key: recursive merge when the target value exists, plain replacement
otherwise (deepMerge itself replaces unless both sides are objects). -/
def mergeValue : Option JSValue → JSValue → JSValue
  | some t, s => deepMerge t s
  | none, s => s
termination_by _ s => (sizeOf s, 1)

end

/-- Object.assign(target, source): copies each own field of the source onto
the target, shallowly and in source order, mutating the target in place. -/
def assignFields : List (String × JSValue) → List (String × JSValue) →
    List (String × JSValue)
  | tf, [] => tf
  | tf, (k, v) :: rest => assignFields (setField tf k v) rest

/-- Object.assign on values: the target keeps its identity and gains the
source's fields; a non-object source contributes nothing. The TypeError JS
raises for a null/undefined target is not modelled — the plugin only applies
this to a module's config object. -/
def objAssign : JSValue → JSValue → JSValue
  | .vObj tid tf, .vObj _ sf => .vObj tid (assignFields tf sf)
  | t, _ => t

/-- Keys of an association list are pairwise distinct (checked head against
tail with lookupField). Real JS objects always satisfy this; the association
list representation makes it a side condition. -/
def keysNodupB {α : Type} : List (String × α) → Bool
  | [] => true
  | (k, _) :: rest => (lookupField rest k).isNone && keysNodupB rest

mutual

/-- All objects nested in a value have pairwise-distinct keys. -/
def wfB : JSValue → Bool
  | .vObj _ fs => keysNodupB fs && wfFieldsB fs
  | _ => true
termination_by v => (sizeOf v, 1)

/-- wfB on every value of a field list. -/
def wfFieldsB : List (String × JSValue) → Bool
  | [] => true
  | (_, v) :: rest => wfB v && wfFieldsB rest
termination_by l => (sizeOf l, 0)

end

mutual

/-- The update value does not mention the given path: merging it into any
target leaves the target's value at that path unchanged. The empty path (the
root itself) is always touched. -/
def untouchedB : JSValue → List String → Bool
  | _, [] => false
  | .vObj _ sf, k :: rest => untouchedFieldsB sf k rest
  | _, _ :: _ => false
termination_by v _ => (sizeOf v, 1)

/-- Helper of untouchedB walking the field list for the head key. -/
def untouchedFieldsB : List (String × JSValue) → String → List String → Bool
  | [], _, _ => true
  | (k', v) :: fs, k, rest =>
    if k' = k then untouchedB v rest else untouchedFieldsB fs k rest
termination_by l _ _ => (sizeOf l, 0)

end

/-! ### Vuex store modules

Translation of the store-module descriptors handled by XPlugin. A module's
state slice is a JS object (AnyXStoreModule declares it as a thunk returning
one; after customizeStoreModule it is a plain object, and hasModuleConfig in
the source inspects typeof to cope with both shapes). Mutations are functions;
they are represented symbolically — an opaque tag for module-authored
mutations, and a distinguished constructor for the setConfig mutation the
installer synthesizes, whose behaviour on states is given separately by
defaultSetConfigMutation. Getters and actions are opaque tags. -/

/-- The state slice of a store module: either a plain object or a thunk
returning one (calling the thunk yields the stored object). -/
inductive StateRep where
  | obj : JSValue → StateRep
  | fn : JSValue → StateRep

/-- A mutation entry of a store module: either the installer's synthesized
setConfig mutation or an opaque module-authored function. -/
inductive MutationDef where
  | defaultSetConfig : MutationDef
  | custom : Nat → MutationDef
  deriving DecidableEq, Repr

/-- The mutations dictionary of a store module, tagged with its allocation
identity so that in-place insertion of a mutation is observable. -/
structure MutDict where
  objId : Nat
  entries : List (String × MutationDef)
  deriving Repr

/-- A Vuex store module descriptor as manipulated by XPlugin: its allocation
identity, the namespaced flag the installer sets, its state, and symbolic
getters / mutations / actions dictionaries. The mutations dictionary can be
absent (undefined), which addConfigMutation handles specially. -/
structure StoreModule where
  objId : Nat
  namespaced : Bool
  state : StateRep
  getters : List (String × Nat)
  mutations : Option MutDict
  actions : List (String × Nat)

/-- Evaluates the state slice: a thunk is called, a plain object is read. -/
def evalState : StateRep → JSValue
  | .obj s => s
  | .fn s => s

/-- XPlugin.hasModuleConfig: typeof storeModule.state === 'function'
? !!storeModule.state().config : !!storeModule.state.config. Note the double
negation: the check is on the truthiness of the config value, not on the mere
presence of a config key. -/
def hasModuleConfig (m : StoreModule) : Bool :=
  match m.state with
  | .fn s => (getFieldD s "config").truthy
  | .obj s => (getFieldD s "config").truthy

/-- Behaviour of the mutation produced by XPlugin.getDefaultSetConfigMutation
on a module state: Object.assign(state.config, config), i.e. the fields of the
new config are shallow-assigned onto the existing state.config object, which
keeps its identity; the state object itself is unchanged otherwise. -/
def defaultSetConfigMutation (state config : JSValue) : JSValue :=
  match state with
  | .vObj sid fields =>
    .vObj sid (setField fields "config"
      (objAssign ((lookupField fields "config").getD .vUndefined) config))
  | other => other

/-- XPlugin.addConfigMutation: if the module's state has a (truthy) config,
add the default setConfig mutation — creating the mutations dictionary when it
is undefined (freshId is the identity of that new object), inserting into the
existing dictionary when it lacks a setConfig entry, and leaving the module
alone when the module already defines setConfig. The module is mutated in
place and returned. -/
def addConfigMutation (freshId : Nat) (m : StoreModule) : StoreModule :=
  if hasModuleConfig m then
    match m.mutations with
    | none =>
      let newDict := MutDict.mk freshId [("setConfig", .defaultSetConfig)]
      { m with mutations := some newDict }
    | some md =>
      if (lookupField md.entries "setConfig").isNone then
        let grownDict :=
          MutDict.mk md.objId (setField md.entries "setConfig" .defaultSetConfig)
        { m with mutations := some grownDict }
      else m
  else m

/-! ### Store emitters -/

/-- Metadata attached to a bus emission; the plugin only ever sets the
originating module name here. -/
structure Metadata where
  moduleName : String
  deriving DecidableEq, Repr

/-- One bus emission: event name, payload and optional metadata. -/
structure Emission where
  event : String
  payload : JSValue
  metadata : Option Metadata

/-- The safe getters proxy handed to selectors: the module's own getters under
their un-namespaced names. -/
abbrev Getters : Type := List (String × JSValue)

/-- A state selector function: module state and safe getters proxy to the
watched value. -/
abbrev SelFn : Type := JSValue → Getters → JSValue

/-- A store-emitter entry (AnySimpleStateSelector or AnyStateSelector): either
a bare selector function, or an options object holding the selector, an
optional immediate flag, an optional isDifferent predicate, and pass-through
watch options. -/
inductive StateSelector where
  | simple : SelFn → StateSelector
  | complex : SelFn → Option Bool → Option (JSValue → JSValue → Bool) →
      List (String × JSValue) → StateSelector

/-- XPlugin.isSimpleSelector: typeof stateSelector === 'function'. -/
def isSimpleSelector : StateSelector → Bool
  | .simple _ => true
  | .complex _ _ _ _ => false

/-- The default change-detection predicate from the destructuring
isDifferent = () => true: it accepts every pair of values. -/
def defaultIsDifferent : JSValue → JSValue → Bool := fun _ _ => true

/-- The destructured form of a store-emitter entry, with the defaults of
registerStoreEmitters applied: immediate = false, isDifferent = () => true,
and the remaining fields collected as watch options. -/
structure EmitterOpts where
  selector : SelFn
  immediate : Bool
  isDifferent : JSValue → JSValue → Bool
  options : List (String × JSValue)

/-- The destructuring step of registerStoreEmitters: a simple selector is
first wrapped as an options object holding only the selector. -/
def destructureSelector : StateSelector → EmitterOpts
  | .simple s => ⟨s, false, defaultIsDifferent, []⟩
  | .complex s imm isDiff opts =>
    ⟨s, imm.getD false, isDiff.getD defaultIsDifferent, opts⟩

/-- A watch registered on the store by registerStoreEmitters: the watched
expression (already specialized to the module's state subtree and safe getters
proxy), the change callback, and the pass-through watch options. The callback
returns the emission it performs, if any. -/
structure Watcher where
  event : String
  watchFn : List (String × JSValue) → JSValue
  callback : JSValue → JSValue → Option Emission
  options : List (String × JSValue)

/-- A deferred emission queued with Promise.resolve().then(...): when the
microtask runs it reads the selector's value from the then-current store state
(payloadOf is applied to state.x) and emits with the stored metadata. The
translation of the source always stores no metadata, because the deferred
bus.emit call passes none. -/
structure ScheduledEmitTask where
  event : String
  payloadOf : List (String × JSValue) → JSValue
  metadata : Option Metadata

/-- Everything registerStoreEmitters does: the watches it registers, the
emissions it performs synchronously while registering (the source performs
none: bus.emit only occurs inside watch callbacks and inside the deferred
microtask), and the deferred emissions it schedules. -/
structure EmitterRegistration where
  watchers : List Watcher
  syncEmissions : List Emission
  scheduledTasks : List ScheduledEmitTask

/-- Key-wise merge of a dictionary with an override: each override binding is
written over the base. This is deepMerge restricted to one level, which is
exact when the values are functions (deepMerge replaces non-object leaves). -/
def mergeKeyed {α : Type} (base ov : List (String × α)) : List (String × α) :=
  ov.foldl (fun acc e => setField acc e.1 e.2) base

/-- The watcher built for one emitter entry: watch
state => selector(state.x[name], safeGettersProxy) and, on change, emit the
event with the new value and metadata containing the module name whenever
isDifferent accepts the pair. -/
def mkWatcher (name : String) (proxy : Getters) (event : String)
    (o : EmitterOpts) : Watcher :=
  { event := event
    watchFn := fun sx => o.selector ((lookupField sx name).getD .vUndefined) proxy
    callback := fun newValue oldValue =>
      if o.isDifferent newValue oldValue then
        some ⟨event, newValue, some ⟨name⟩⟩
      else none
    options := o.options }

/-- The deferred emission scheduled for an immediate emitter: the selector
read from the current store state, emitted with no metadata. -/
def mkScheduledTask (name : String) (proxy : Getters) (event : String)
    (o : EmitterOpts) : ScheduledEmitTask :=
  { event := event
    payloadOf := fun sx => o.selector ((lookupField sx name).getD .vUndefined) proxy
    metadata := none }

/-- XPlugin.registerStoreEmitters: merge the per-module override into the
module's emitters (key-wise: emitter entries hold functions, which deepMerge
replaces), then for each entry destructure it, register a watch, and — when
immediate is set — schedule one deferred emission. No emission is performed
synchronously. -/
def registerStoreEmittersFn (name : String)
    (emittersOverride : Option (List (String × StateSelector)))
    (proxy : Getters) (storeEmitters : List (String × StateSelector)) :
    EmitterRegistration :=
  let customized := match emittersOverride with
    | some ov => mergeKeyed storeEmitters ov
    | none => storeEmitters
  { watchers := customized.map
      (fun e => mkWatcher name proxy e.1 (destructureSelector e.2))
    syncEmissions := []
    scheduledTasks :=
      (customized.filter (fun e => (destructureSelector e.2).immediate)).map
        (fun e => mkScheduledTask name proxy e.1 (destructureSelector e.2)) }

/-! ### Wiring and module descriptors -/

/-- A wire is a function invoked with the event observable and the store; its
behaviour is irrelevant to the installer, so wires are opaque tags. -/
abbrev Wire : Type := Nat

/-- A wiring: event name to dictionary of named wires. -/
abbrev Wiring : Type := List (String × List (String × Wire))

/-- The wiring customization of registerWiring: deepMerge({}, wiring,
wiringOptions) merges per event and, within an event, per wire name, override
wires (functions) replacing base wires. -/
def mergeWiring (base ov : Wiring) : Wiring :=
  ov.foldl
    (fun acc e =>
      match lookupField acc e.1 with
      | some ws => setField acc e.1 (mergeKeyed ws e.2)
      | none => setField acc e.1 e.2)
    base

/-- An XModule descriptor: the unit a feature package contributes. -/
structure XModule where
  name : String
  storeModule : StoreModule
  wiring : Wiring
  storeEmitters : List (String × StateSelector)

/-- Per-module override options of a store module
(AnyXStoreModuleOptions): a deep-partial state and optional replacement
dictionaries. -/
structure StoreModuleOptions where
  state : Option JSValue
  getters : Option (List (String × Nat))
  mutations : Option (List (String × MutationDef))
  actions : Option (List (String × Nat))

/-- Per-module install-time overrides (XModuleOptions). -/
structure XModuleOptions where
  wiring : Option Wiring
  storeModule : Option StoreModuleOptions
  storeEmitters : Option (List (String × StateSelector))

/-- Install options (XPluginOptions). The adapter is required but modelled as
optional so that the validation step is meaningful; store is an opaque
existing store instance to reuse. -/
structure XPluginOptions where
  adapter : Option Nat
  store : Option Nat
  config : Option JSValue
  xModules : Option (List (String × XModuleOptions))

/-- XPlugin.customizeStoreModule: deepMerge({}, actionsGettersMutations,
newActionsGettersMutations) builds a fresh module object (freshId); the
dictionaries inside are merged key-wise, the mutations dictionary keeping its
identity when the module had one (deepMerge({}, a) copies the nested object
references, so the later merge happens in place on them) and otherwise being
the override's own object (freshId + 1 stands for its identity). The state is
deepMerge(getState(), stateOptions): the thunk's object merged in place. -/
def customizeStoreModule (freshId : Nat) (m : StoreModule)
    (o : StoreModuleOptions) : StoreModule :=
  let mergedMutations := match m.mutations, o.mutations with
    | some md, some om => some (MutDict.mk md.objId (mergeKeyed md.entries om))
    | some md, none => some md
    | none, some om => some (MutDict.mk (freshId + 1) om)
    | none, none => none
  { objId := freshId
    namespaced := m.namespaced
    state := .obj (match o.state with
      | some so => deepMerge (evalState m.state) so
      | none => evalState m.state)
    getters := mergeKeyed m.getters (o.getters.getD [])
    mutations := mergedMutations
    actions := mergeKeyed m.actions (o.actions.getD []) }

/-- XPlugin.registerStoreModule: apply the per-module storeModule override if
there is one (otherwise keep the very descriptor object), mark the module
namespaced, add the config mutation, and hand the result to
store.registerModule(['x', name], ...). Returns the module object that gets
registered. freshId feeds the allocations customizeStoreModule and
addConfigMutation may perform. -/
def registerStoreModuleFn (xModulesOptions : List (String × XModuleOptions))
    (freshId : Nat) (name : String) (storeModule : StoreModule) : StoreModule :=
  let storeModuleOptions := (lookupField xModulesOptions name).bind (·.storeModule)
  let customized := match storeModuleOptions with
    | some o => customizeStoreModule freshId storeModule o
    | none => storeModule
  let customized := { customized with namespaced := true }
  addConfigMutation (freshId + 2) customized

/-! ### The plugin singleton -/

/-- The errors XPlugin can raise: the explicit double-install error, the
invalid-options error of the validation step, the access-before-install error
of getInstance, and a failure propagated out of one of the install steps by an
external collaborator (Vue, Vuex, a malformed override, ...). -/
inductive InstallStep where
  | registerConfig : InstallStep
  | registerStore : InstallStep
  | applyMixins : InstallStep
  | registerFilters : InstallStep
  | registerPendingXModules : InstallStep
  deriving DecidableEq, Repr

/-- Error outcomes of the plugin's synchronous operations. -/
inductive XError where
  | alreadyInstalled : XError
  | invalidOptions : XError
  | accessBeforeInstall : XError
  | stepFailure : InstallStep → XError
  deriving DecidableEq, Repr

/-- The mutable state of one XPlugin object. adapter, options, store and
xConfig use definite-assignment in the source (set during install), hence
Option here; the registered... fields record what has been registered on the
store and bus, keyed by module name, in registration order. nextId feeds
object allocations. -/
structure PluginInstance where
  bus : Nat
  adapter : Option Nat
  installedXModules : List String
  isInstalled : Bool
  options : Option XPluginOptions
  storeCreated : Bool
  rootModuleRegistered : Bool
  storeGetters : Getters
  registeredStoreModules : List (String × StoreModule)
  registeredWirings : List (String × Wiring)
  registeredEmitters : List (String × EmitterRegistration)
  stateX : List (String × JSValue)
  xConfig : Option JSValue
  nextId : Nat

/-- A freshly constructed plugin instance (constructor(bus)). -/
def mkPluginInstance (bus : Nat) : PluginInstance :=
  { bus := bus
    adapter := none
    installedXModules := []
    isInstalled := false
    options := none
    storeCreated := false
    rootModuleRegistered := false
    storeGetters := []
    registeredStoreModules := []
    registeredWirings := []
    registeredEmitters := []
    stateX := []
    xConfig := none
    nextId := 1 }

/-- The process-wide static state of the XPlugin class: the installed instance
slot and the pending-modules queue. -/
structure World where
  inst : Option PluginInstance
  pendingXModules : List (String × XModule)

/-- A process that has not installed any plugin instance. -/
def emptyWorld : World :=
  { inst := none, pendingXModules := [] }

/-- XPlugin.getInstance: the installed instance, or the explicit error when
accessed before installation. -/
def getInstance (w : World) : Except XError PluginInstance :=
  match w.inst with
  | none => .error .accessBeforeInstall
  | some i => .ok i

/-- The static accessor XPlugin.adapter. -/
def adapterAccessor (w : World) : Except XError (Option Nat) :=
  (getInstance w).map (·.adapter)

/-- The static accessor XPlugin.bus. -/
def busAccessor (w : World) : Except XError Nat :=
  (getInstance w).map (·.bus)

/-- The static accessor XPlugin.config. -/
def configAccessor (w : World) : Except XError (Option JSValue) :=
  (getInstance w).map (·.xConfig)

/-- Modelled from the spec: getGettersProxyFromModule lives in
src/store/utils/get-getters-proxy.ts, which is not among the provided sources.
The spec says the safe getters proxy "exposes only the getters belonging to
this module, under their un-namespaced names, even though the underlying store
exposes them namespaced". -/
def getGettersProxyFromModule (storeGetters : Getters) (name : String)
    (m : StoreModule) : Getters :=
  m.getters.map (fun g =>
    (g.1, (lookupField storeGetters ("x/" ++ name ++ "/" ++ g.1)).getD .vUndefined))

/-- XPlugin.prototype.registerXModule (the per-module registration procedure):
when the module name is not yet installed, register the store module, the
wiring and the store emitters, then mark the name installed; otherwise do
nothing. -/
def PluginInstance.registerXModule (self : PluginInstance) (m : XModule) :
    PluginInstance :=
  if m.name ∈ self.installedXModules then self
  else
    let xmOpts := (self.options.bind (·.xModules)).getD []
    let registeredModule := registerStoreModuleFn xmOpts self.nextId m.name m.storeModule
    let customizedWiring := match (lookupField xmOpts m.name).bind (·.wiring) with
      | some ov => mergeWiring m.wiring ov
      | none => m.wiring
    let proxy := getGettersProxyFromModule self.storeGetters m.name m.storeModule
    let emitterReg := registerStoreEmittersFn m.name
      ((lookupField xmOpts m.name).bind (·.storeEmitters)) proxy m.storeEmitters
    { self with
      registeredStoreModules := self.registeredStoreModules ++ [(m.name, registeredModule)]
      stateX := setField self.stateX m.name (evalState registeredModule.state)
      registeredWirings := self.registeredWirings ++ [(m.name, customizedWiring)]
      registeredEmitters := self.registeredEmitters ++ [(m.name, emitterReg)]
      installedXModules := m.name :: self.installedXModules
      nextId := self.nextId + 3 }

/-- XPlugin.lazyRegisterXModule: queue the module, keyed by its name (a later
request for the same name overwrites the entry). -/
def lazyRegisterXModule (w : World) (m : XModule) : World :=
  { w with pendingXModules := setField w.pendingXModules m.name m }

/-- The static XPlugin.registerXModule: register immediately on the installed
instance, or queue until installation. -/
def staticRegisterXModule (w : World) (m : XModule) : World :=
  match w.inst with
  | some i => { w with inst := some (i.registerXModule m) }
  | none => lazyRegisterXModule w m

/-- Modelled from the spec: assertXPluginOptionsAreValid lives in
src/plugins/x-plugin.utils.ts, which is not among the provided sources. The
spec says installation "validates install options (fails fast if a required
adapter dependency is absent)" and classifies a missing required adapter as a
synchronous InstallationError. -/
def assertXPluginOptionsAreValid : Option XPluginOptions →
    Except XError XPluginOptions
  | none => .error .invalidOptions
  | some o => if o.adapter.isSome then .ok o else .error .invalidOptions

/-- Modelled from the spec: the built-in defaults DEFAULT_X_CONFIG live in
src/plugins/x-plugin.config.ts, which is not among the provided sources, and
no claim depends on the particular default fields; an empty object stands in
for them. -/
def DEFAULT_X_CONFIG : JSValue := .vObj 0 []

/-- XPlugin.registerConfig: build the global config as deepMerge({},
DEFAULT_X_CONFIG, options.config) — a fresh object, defaults first, supplied
config merged over them — and store it as the reactive xConfig
(registerReactiveConfig of the missing config.service is modelled from the
spec as returning the same, now reactive, object). The adapter
config-changed listener has no effect modelled here. -/
def registerConfigStep (self : PluginInstance) (opts : XPluginOptions) :
    PluginInstance :=
  let base := deepMerge (.vObj self.nextId []) DEFAULT_X_CONFIG
  let merged := match opts.config with
    | some c => deepMerge base c
    | none => base
  { self with xConfig := some merged, nextId := self.nextId + 1 }

/-- XPlugin.registerStore: install Vuex, reuse the supplied store or create
one (exposing it on the Vue prototype), and register the root x module. The
store itself is external; only the facts the claims need are recorded. -/
def registerStoreStep (self : PluginInstance) : PluginInstance :=
  { self with storeCreated := true, rootModuleRegistered := true }

/-- XPlugin.registerPendingXModules: register every queued module through the
per-module procedure (the caller then resets the queue). -/
def registerPendingXModulesStep (self : PluginInstance)
    (pending : List (String × XModule)) : PluginInstance :=
  pending.foldl (fun i e => i.registerXModule e.2) self

/-- XPlugin.install. The failAt argument is the environment's choice of which
install step, if any, throws (install calls external collaborators — Vue,
Vuex, feature modules — any of which may raise); a failing step raises before
its effects are recorded. The source sets XPlugin.instance = this right after
validation, assigns options and adapter, runs the five steps, and only then
sets isInstalled = true. -/
def install (self : PluginInstance) (options : Option XPluginOptions)
    (failAt : Option InstallStep) (w : World) : Except XError Unit × World :=
  if self.isInstalled then (.error .alreadyInstalled, w)
  else
    match assertXPluginOptionsAreValid options with
    | .error e => (.error e, w)
    | .ok opts =>
      let self1 := { self with options := some opts, adapter := opts.adapter }
      let w1 := { w with inst := some self1 }
      if failAt = some .registerConfig then
        (.error (.stepFailure .registerConfig), w1)
      else
        let self2 := registerConfigStep self1 opts
        let w2 := { w1 with inst := some self2 }
        if failAt = some .registerStore then
          (.error (.stepFailure .registerStore), w2)
        else
          let self3 := registerStoreStep self2
          let w3 := { w2 with inst := some self3 }
          if failAt = some .applyMixins then
            (.error (.stepFailure .applyMixins), w3)
          else if failAt = some .registerFilters then
            (.error (.stepFailure .registerFilters), w3)
          else if failAt = some .registerPendingXModules then
            (.error (.stepFailure .registerPendingXModules), w3)
          else
            let self4 := registerPendingXModulesStep self3 w3.pendingXModules
            let self5 := { self4 with isInstalled := true }
            (.ok (), { w3 with inst := some self5, pendingXModules := [] })

/-- XPlugin.setConfig: deepMerge(this.xConfig, config) — the partial update is
merged into the live config object, which keeps its identity. -/
def PluginInstance.setConfig (self : PluginInstance) (config : JSValue) :
    PluginInstance :=
  { self with xConfig := self.xConfig.map (fun c => deepMerge c config) }

/-! ### Sample data used by the witnesses -/

/-- A selector returning the watched module state itself. -/
def sampleSelector : SelFn := fun s _ => s

/-- A representative feature-module descriptor. -/
def sampleModule : XModule :=
  { name := "searchBox"
    storeModule :=
      { objId := 10
        namespaced := false
        state := .fn (.vObj 11
          [("query", .vStr ""),
           ("config", .vObj 12 [("debounce", .vNum 500)])])
        getters := [("trimmedQuery", 1)]
        mutations := some (MutDict.mk 13 [("setQuery", .custom 1)])
        actions := [] }
    wiring := [("UserTyped", [("setQuery", 2)])]
    storeEmitters := [("QueryChanged", .simple sampleSelector)] }

/-! ### Facts about the per-module registration procedure -/

theorem countKey_append_same {β : Type} (l : List (String × β)) (k : String)
    (x : β) : countKey (l ++ [(k, x)]) k = countKey l k + 1 := by
  simp [countKey, List.filter_append]

theorem countKey_append_other {β : Type} (l : List (String × β)) (k k' : String)
    (x : β) (h : k ≠ k') : countKey (l ++ [(k, x)]) k' = countKey l k' := by
  simp [countKey, List.filter_append, h]

theorem registerXModule_of_mem (self : PluginInstance) (m : XModule)
    (h : m.name ∈ self.installedXModules) : self.registerXModule m = self := by
  simp [PluginInstance.registerXModule, h]

theorem installed_registerXModule_of_not_mem (self : PluginInstance)
    (m : XModule) (h : m.name ∉ self.installedXModules) :
    (self.registerXModule m).installedXModules = m.name :: self.installedXModules := by
  simp [PluginInstance.registerXModule, h]

theorem storeModules_registerXModule_of_not_mem (self : PluginInstance)
    (m : XModule) (h : m.name ∉ self.installedXModules) :
    ∃ sm, (self.registerXModule m).registeredStoreModules
      = self.registeredStoreModules ++ [(m.name, sm)] := by
  simp [PluginInstance.registerXModule, h]

theorem wirings_registerXModule_of_not_mem (self : PluginInstance)
    (m : XModule) (h : m.name ∉ self.installedXModules) :
    ∃ wr, (self.registerXModule m).registeredWirings
      = self.registeredWirings ++ [(m.name, wr)] := by
  simp [PluginInstance.registerXModule, h]

theorem emitters_registerXModule_of_not_mem (self : PluginInstance)
    (m : XModule) (h : m.name ∉ self.installedXModules) :
    ∃ er, (self.registeredEmitters ++ [(m.name, er)])
      = (self.registerXModule m).registeredEmitters := by
  simp [PluginInstance.registerXModule, h]

/-- Registering any module can only grow the installed-names set. -/
theorem mem_installed_registerXModule (self : PluginInstance) (m : XModule)
    (a : String) (h : a ∈ self.installedXModules) :
    a ∈ (self.registerXModule m).installedXModules := by
  by_cases hm : m.name ∈ self.installedXModules
  · rw [registerXModule_of_mem self m hm]; exact h
  · rw [installed_registerXModule_of_not_mem self m hm]
    exact List.mem_cons_of_mem _ h

/-- Once a name is installed, any further registrations under that name leave
the instance untouched. -/
theorem foldl_registerXModule_of_mem (n : String) (ms : List XModule) :
    ∀ st : PluginInstance, n ∈ st.installedXModules → (∀ m ∈ ms, m.name = n) →
    ms.foldl PluginInstance.registerXModule st = st := by
  induction ms with
  | nil => intro st _ _; rfl
  | cons m rest ih =>
    intro st hmem hall
    have hname : m.name = n := hall m (List.mem_cons_self m rest)
    have hstep : st.registerXModule m = st :=
      registerXModule_of_mem st m (hname ▸ hmem)
    simpa [hstep] using ih st hmem (fun m' hm' => hall m' (List.mem_cons_of_mem m hm'))

/-- C1: For every module descriptor and every sequence of registration calls,
registering a module whose name is already in the installed-modules set is a
no-op: the store module, the wiring, and the store emitters of that name are
registered exactly once, and the second and later calls change nothing. -/
theorem registerXModule_registers_once (st : PluginInstance) (n : String)
    (ms : List XModule) (hne : ms ≠ []) (hall : ∀ m ∈ ms, m.name = n)
    (hfresh : n ∉ st.installedXModules)
    (hsm : countKey st.registeredStoreModules n = 0)
    (hw : countKey st.registeredWirings n = 0)
    (he : countKey st.registeredEmitters n = 0) :
    countKey (ms.foldl PluginInstance.registerXModule st).registeredStoreModules n = 1 ∧
    countKey (ms.foldl PluginInstance.registerXModule st).registeredWirings n = 1 ∧
    countKey (ms.foldl PluginInstance.registerXModule st).registeredEmitters n = 1 ∧
    ∀ m' : XModule, m'.name = n →
      (ms.foldl PluginInstance.registerXModule st).registerXModule m'
        = ms.foldl PluginInstance.registerXModule st := by
  obtain ⟨m, rest, rfl⟩ : ∃ m rest, ms = m :: rest := by
    cases ms with
    | nil => exact absurd rfl hne
    | cons m rest => exact ⟨m, rest, rfl⟩
  have hname : m.name = n := hall m (List.mem_cons_self m rest)
  have hfreshm : m.name ∉ st.installedXModules := hname ▸ hfresh
  have hrest : ∀ m' ∈ rest, m'.name = n :=
    fun m' hm' => hall m' (List.mem_cons_of_mem m hm')
  have hinst : n ∈ (st.registerXModule m).installedXModules := by
    rw [installed_registerXModule_of_not_mem st m hfreshm, hname]
    exact List.mem_cons_self n _
  have hfold : (m :: rest).foldl PluginInstance.registerXModule st
      = st.registerXModule m := by
    simpa using foldl_registerXModule_of_mem n rest (st.registerXModule m) hinst hrest
  obtain ⟨sm, hsm'⟩ := storeModules_registerXModule_of_not_mem st m hfreshm
  obtain ⟨wr, hw'⟩ := wirings_registerXModule_of_not_mem st m hfreshm
  obtain ⟨er, he'⟩ := emitters_registerXModule_of_not_mem st m hfreshm
  refine ⟨?_, ?_, ?_, ?_⟩
  · rw [hfold, hsm', hname, countKey_append_same, hsm]
  · rw [hfold, hw', hname, countKey_append_same, hw]
  · rw [hfold, ← he', hname, countKey_append_same, he]
  · intro m' hm'
    exact registerXModule_of_mem _ m' (by rw [hfold, hm']; exact hinst)

/-- Witness for C1 at a concrete instance: registering the sample module twice
on a fresh plugin instance registers its store module, wiring and emitters
exactly once, and a further attempt changes nothing. -/
theorem registerXModule_registers_once_witness :
    countKey (([sampleModule, sampleModule].foldl PluginInstance.registerXModule
      (mkPluginInstance 0)).registeredStoreModules) "searchBox" = 1 ∧
    countKey (([sampleModule, sampleModule].foldl PluginInstance.registerXModule
      (mkPluginInstance 0)).registeredWirings) "searchBox" = 1 ∧
    countKey (([sampleModule, sampleModule].foldl PluginInstance.registerXModule
      (mkPluginInstance 0)).registeredEmitters) "searchBox" = 1 ∧
    ∀ m' : XModule, m'.name = "searchBox" →
      (([sampleModule, sampleModule].foldl PluginInstance.registerXModule
        (mkPluginInstance 0)).registerXModule m')
        = [sampleModule, sampleModule].foldl PluginInstance.registerXModule
          (mkPluginInstance 0) :=
  registerXModule_registers_once (mkPluginInstance 0) "searchBox"
    [sampleModule, sampleModule] (by simp)
    (by intro m hm
        simp only [List.mem_cons, List.not_mem_nil, or_false] at hm
        rcases hm with h | h <;> (subst h; rfl))
    (by simp [mkPluginInstance]) rfl rfl rfl

/-! ### Facts about install and the static accessors -/

/-- Options that pass validation. -/
def sampleOptions : XPluginOptions :=
  { adapter := some 1, store := none, config := none, xModules := none }

theorem assert_ok_shape (opts : Option XPluginOptions) (o : XPluginOptions)
    (h : assertXPluginOptionsAreValid opts = .ok o) :
    opts = some o ∧ o.adapter.isSome = true := by
  cases opts with
  | none => simp [assertXPluginOptionsAreValid] at h
  | some o' =>
    by_cases ha : o'.adapter.isSome
    · simp [assertXPluginOptionsAreValid, ha] at h
      exact ⟨by rw [h], h ▸ ha⟩
    · simp [assertXPluginOptionsAreValid, ha] at h

theorem assert_error_shape (opts : Option XPluginOptions) (e : XError)
    (h : assertXPluginOptionsAreValid opts = .error e) : e = .invalidOptions := by
  cases opts with
  | none =>
    simp [assertXPluginOptionsAreValid] at h
    exact h.symm
  | some o' =>
    by_cases ha : o'.adapter.isSome <;>
      simp [assertXPluginOptionsAreValid, ha] at h
    exact h.symm

/-- Draining pending modules touches only the registration logs, the
installed set, the state tree and the allocator. -/
theorem drain_preserves (ms : List (String × XModule)) : ∀ self : PluginInstance,
    (registerPendingXModulesStep self ms).adapter = self.adapter ∧
    (registerPendingXModulesStep self ms).bus = self.bus ∧
    (registerPendingXModulesStep self ms).xConfig = self.xConfig ∧
    (registerPendingXModulesStep self ms).isInstalled = self.isInstalled := by
  induction ms with
  | nil => intro self; exact ⟨rfl, rfl, rfl, rfl⟩
  | cons e rest ih =>
    intro self
    have hstep : (self.registerXModule e.2).adapter = self.adapter ∧
        (self.registerXModule e.2).bus = self.bus ∧
        (self.registerXModule e.2).xConfig = self.xConfig ∧
        (self.registerXModule e.2).isInstalled = self.isInstalled := by
      by_cases hm : e.2.name ∈ self.installedXModules <;>
        simp [PluginInstance.registerXModule, hm]
    have hfold : registerPendingXModulesStep self (e :: rest)
        = registerPendingXModulesStep (self.registerXModule e.2) rest := by
      simp [registerPendingXModulesStep]
    rw [hfold]
    obtain ⟨ha, hb, hc, hd⟩ := ih (self.registerXModule e.2)
    exact ⟨ha.trans hstep.1, hb.trans hstep.2.1, hc.trans hstep.2.2.1,
      hd.trans hstep.2.2.2⟩

theorem drain_adapter (ms : List (String × XModule)) (self : PluginInstance) :
    (registerPendingXModulesStep self ms).adapter = self.adapter :=
  (drain_preserves ms self).1

theorem drain_bus (ms : List (String × XModule)) (self : PluginInstance) :
    (registerPendingXModulesStep self ms).bus = self.bus :=
  (drain_preserves ms self).2.1

theorem drain_xConfig (ms : List (String × XModule)) (self : PluginInstance) :
    (registerPendingXModulesStep self ms).xConfig = self.xConfig :=
  (drain_preserves ms self).2.2.1

/-- Shape of a successful install: the static slot holds the instance, marked
installed, its adapter/bus/config set from the options, and the pending queue
drained and reset. -/
theorem install_ok_shape (self : PluginInstance) (opts : Option XPluginOptions)
    (failAt : Option InstallStep) (w w' : World)
    (h : install self opts failAt w = (.ok (), w')) :
    ∃ i o, w'.inst = some i ∧ opts = some o ∧ o.adapter.isSome = true ∧
      i.isInstalled = true ∧ i.adapter = o.adapter ∧ i.bus = self.bus ∧
      (∃ c, i.xConfig = some c) ∧ w'.pendingXModules = [] := by
  by_cases hi : self.isInstalled
  · simp [install, hi] at h
  · rcases ha : assertXPluginOptionsAreValid opts with e | o
    · simp [install, hi, ha] at h
    · obtain ⟨hopts, hadapt⟩ := assert_ok_shape opts o ha
      by_cases h1 : failAt = some .registerConfig
      · simp [install, hi, ha, h1] at h
      · by_cases h2 : failAt = some .registerStore
        · simp [install, hi, ha, h1, h2] at h
        · by_cases h3 : failAt = some .applyMixins
          · simp [install, hi, ha, h1, h2, h3] at h
          · by_cases h4 : failAt = some .registerFilters
            · simp [install, hi, ha, h1, h2, h3, h4] at h
            · by_cases h5 : failAt = some .registerPendingXModules
              · simp [install, hi, ha, h1, h2, h3, h4, h5] at h
              · simp [install, hi, ha, h1, h2, h3, h4, h5] at h
                rw [← h]
                refine ⟨_, o, rfl, hopts, hadapt, rfl, ?_, ?_, ?_, rfl⟩
                · rw [drain_adapter]
                  simp [registerStoreStep, registerConfigStep]
                · rw [drain_bus]
                  simp [registerStoreStep, registerConfigStep]
                · rw [drain_xConfig]
                  exact ⟨_, rfl⟩

/-- C2: Calling install on a plugin instance that has already completed a
successful install throws an explicit synchronous error and performs no
re-installation (the world is returned unchanged). -/
theorem install_twice_rejected (self : PluginInstance)
    (opts : Option XPluginOptions) (w w' : World)
    (h : install self opts none w = (.ok (), w')) :
    ∃ i, w'.inst = some i ∧
      ∀ (opts2 : Option XPluginOptions) (failAt2 : Option InstallStep),
        install i opts2 failAt2 w' = (.error .alreadyInstalled, w') := by
  obtain ⟨i, o, hi, _, _, hinst, _⟩ := install_ok_shape self opts none w w' h
  exact ⟨i, hi, fun opts2 failAt2 => by simp [install, hinst]⟩

/-- Witness for C2: a concrete fresh instance installed with valid options;
re-installing it afterwards fails with the explicit error and leaves the
world as it was. -/
theorem install_twice_rejected_witness :
    ∃ i, ((install (mkPluginInstance 0) (some sampleOptions) none
        emptyWorld).2).inst = some i ∧
      ∀ (opts2 : Option XPluginOptions) (failAt2 : Option InstallStep),
        install i opts2 failAt2
            ((install (mkPluginInstance 0) (some sampleOptions) none emptyWorld).2)
          = (.error .alreadyInstalled,
            (install (mkPluginInstance 0) (some sampleOptions) none emptyWorld).2) :=
  install_twice_rejected (mkPluginInstance 0) (some sampleOptions) emptyWorld _
    (Prod.ext rfl rfl)

/-- C3: while no plugin instance has been installed every static accessor
(adapter, bus, config) throws the access-before-install error; after a
successful install each accessor returns the corresponding installed value
without throwing: the options' adapter, the constructor's bus, and the
(merged) config object. -/
theorem accessors_spec :
    (∀ w : World, w.inst = none →
      adapterAccessor w = .error .accessBeforeInstall ∧
      busAccessor w = .error .accessBeforeInstall ∧
      configAccessor w = .error .accessBeforeInstall) ∧
    (∀ (self : PluginInstance) (opts : Option XPluginOptions) (w w' : World),
      install self opts none w = (.ok (), w') →
      ∃ i o, w'.inst = some i ∧ opts = some o ∧
        adapterAccessor w' = .ok o.adapter ∧ o.adapter.isSome = true ∧
        busAccessor w' = .ok self.bus ∧
        ∃ c, configAccessor w' = .ok (some c)) := by
  constructor
  · intro w h
    refine ⟨?_, ?_, ?_⟩ <;>
      simp [adapterAccessor, busAccessor, configAccessor, getInstance, h,
        Except.map]
  · intro self opts w w' h
    obtain ⟨i, o, hi, hopts, hadapt, _, hia, hib, ⟨c, hic⟩, _⟩ :=
      install_ok_shape self opts none w w' h
    refine ⟨i, o, hi, hopts, ?_, hadapt, ?_, c, ?_⟩ <;>
      simp [adapterAccessor, busAccessor, configAccessor, getInstance, hi, hia,
        hib, hic, Except.map]

/-- Witness for C3: on the empty world every accessor errors; after a concrete
successful install they return the installed adapter, bus and config. -/
theorem accessors_spec_witness :
    (adapterAccessor emptyWorld = .error .accessBeforeInstall ∧
      busAccessor emptyWorld = .error .accessBeforeInstall ∧
      configAccessor emptyWorld = .error .accessBeforeInstall) ∧
    (∃ i o,
      ((install (mkPluginInstance 5) (some sampleOptions) none emptyWorld).2).inst
          = some i ∧
        some sampleOptions = some o ∧
        adapterAccessor
            ((install (mkPluginInstance 5) (some sampleOptions) none emptyWorld).2)
          = .ok o.adapter ∧
        o.adapter.isSome = true ∧
        busAccessor
            ((install (mkPluginInstance 5) (some sampleOptions) none emptyWorld).2)
          = .ok (mkPluginInstance 5).bus ∧
        ∃ c, configAccessor
            ((install (mkPluginInstance 5) (some sampleOptions) none emptyWorld).2)
          = .ok (some c)) :=
  ⟨accessors_spec.1 emptyWorld rfl,
    accessors_spec.2 (mkPluginInstance 5) (some sampleOptions) emptyWorld _
      (Prod.ext rfl rfl)⟩

/-- An instance that is not marked installed can never be rejected with the
already-installed error: install then either fails validation, fails at a
step, or succeeds. -/
theorem install_not_alreadyInstalled (i : PluginInstance)
    (hni : i.isInstalled = false) (opts2 : Option XPluginOptions)
    (failAt2 : Option InstallStep) (w2 : World) :
    (install i opts2 failAt2 w2).1 ≠ .error .alreadyInstalled := by
  rcases ha : assertXPluginOptionsAreValid opts2 with e | o
  · have he := assert_error_shape opts2 e ha
    simp [install, hni, ha, he]
  · rcases failAt2 with _ | s
    · simp [install, hni, ha]
    · cases s <;> simp [install, hni, ha]

/-- C10: if install is called with valid options but a later installation step
throws, the static instance is already set while isInstalled remains false;
consequently the static accessors no longer raise the access-before-install
error, and a subsequent install call on the same instance is not rejected with
the already-installed error. -/
theorem failed_install_state (self : PluginInstance)
    (opts : Option XPluginOptions) (w : World) (step : InstallStep)
    (hni : self.isInstalled = false)
    (hv : ∃ o, assertXPluginOptionsAreValid opts = .ok o) :
    ∃ w' i, install self opts (some step) w = (.error (.stepFailure step), w') ∧
      w'.inst = some i ∧ i.isInstalled = false ∧
      adapterAccessor w' = .ok i.adapter ∧
      busAccessor w' = .ok i.bus ∧
      configAccessor w' = .ok i.xConfig ∧
      ∀ (opts2 : Option XPluginOptions) (failAt2 : Option InstallStep)
        (w2 : World),
        (install i opts2 failAt2 w2).1 ≠ .error .alreadyInstalled := by
  obtain ⟨o, ha⟩ := hv
  have hni' : ¬self.isInstalled = true := by simp [hni]
  cases step with
  | registerConfig =>
    refine ⟨{ w with inst := some { self with options := some o, adapter := o.adapter } },
      { self with options := some o, adapter := o.adapter },
      ?_, rfl, hni, rfl, rfl, rfl,
      fun opts2 failAt2 w2 => install_not_alreadyInstalled
        { self with options := some o, adapter := o.adapter }
        hni opts2 failAt2 w2⟩
    simp [install, hni', ha]
  | registerStore =>
    refine ⟨{ w with inst := some (registerConfigStep
        { self with options := some o, adapter := o.adapter } o) },
      registerConfigStep { self with options := some o, adapter := o.adapter } o,
      ?_, rfl, hni, rfl, rfl, rfl,
      fun opts2 failAt2 w2 => install_not_alreadyInstalled
        (registerConfigStep { self with options := some o, adapter := o.adapter } o)
        hni opts2 failAt2 w2⟩
    simp [install, hni', ha]
  | applyMixins =>
    refine ⟨{ w with inst := some (registerStoreStep (registerConfigStep
        { self with options := some o, adapter := o.adapter } o)) },
      registerStoreStep (registerConfigStep
        { self with options := some o, adapter := o.adapter } o),
      ?_, rfl, hni, rfl, rfl, rfl,
      fun opts2 failAt2 w2 => install_not_alreadyInstalled
        (registerStoreStep (registerConfigStep
          { self with options := some o, adapter := o.adapter } o))
        hni opts2 failAt2 w2⟩
    simp [install, hni', ha]
  | registerFilters =>
    refine ⟨{ w with inst := some (registerStoreStep (registerConfigStep
        { self with options := some o, adapter := o.adapter } o)) },
      registerStoreStep (registerConfigStep
        { self with options := some o, adapter := o.adapter } o),
      ?_, rfl, hni, rfl, rfl, rfl,
      fun opts2 failAt2 w2 => install_not_alreadyInstalled
        (registerStoreStep (registerConfigStep
          { self with options := some o, adapter := o.adapter } o))
        hni opts2 failAt2 w2⟩
    simp [install, hni', ha]
  | registerPendingXModules =>
    refine ⟨{ w with inst := some (registerStoreStep (registerConfigStep
        { self with options := some o, adapter := o.adapter } o)) },
      registerStoreStep (registerConfigStep
        { self with options := some o, adapter := o.adapter } o),
      ?_, rfl, hni, rfl, rfl, rfl,
      fun opts2 failAt2 w2 => install_not_alreadyInstalled
        (registerStoreStep (registerConfigStep
          { self with options := some o, adapter := o.adapter } o))
        hni opts2 failAt2 w2⟩
    simp [install, hni', ha]

/-- Witness for C10: a concrete install that fails while registering the
store leaves the instance set but not installed, accessors working, and a
retry not rejected as a double install. -/
theorem failed_install_state_witness :
    ∃ w' i, install (mkPluginInstance 9) (some sampleOptions)
        (some .registerStore) emptyWorld = (.error (.stepFailure .registerStore), w') ∧
      w'.inst = some i ∧ i.isInstalled = false ∧
      adapterAccessor w' = .ok i.adapter ∧
      busAccessor w' = .ok i.bus ∧
      configAccessor w' = .ok i.xConfig ∧
      ∀ (opts2 : Option XPluginOptions) (failAt2 : Option InstallStep)
        (w2 : World),
        (install i opts2 failAt2 w2).1 ≠ .error .alreadyInstalled :=
  failed_install_state (mkPluginInstance 9) (some sampleOptions) emptyWorld
    .registerStore rfl ⟨sampleOptions, rfl⟩

/-! ### Facts about store emitters -/

/-- C5: for every registered store emitter, the watch callback emits the bound
event with payload newValue and metadata holding the module name exactly when
isDifferent(newValue, oldValue) holds, and the default isDifferent predicate
(used in particular for every bare selector) returns true for all pairs. -/
theorem storeEmitter_callback_spec (name event : String) (sel : StateSelector)
    (proxy : Getters) :
    ∃ w, (registerStoreEmittersFn name none proxy [(event, sel)]).watchers = [w] ∧
      (∀ newValue oldValue : JSValue,
        w.callback newValue oldValue =
          if (destructureSelector sel).isDifferent newValue oldValue = true then
            some ⟨event, newValue, some ⟨name⟩⟩
          else none) ∧
      (∀ a b : JSValue, defaultIsDifferent a b = true) ∧
      (isSimpleSelector sel = true →
        (destructureSelector sel).isDifferent = defaultIsDifferent) := by
  refine ⟨mkWatcher name proxy event (destructureSelector sel), rfl, ?_, ?_, ?_⟩
  · intro newValue oldValue; rfl
  · intro a b; rfl
  · intro h
    cases sel with
    | simple s => rfl
    | complex s imm isDiff opts => simp [isSimpleSelector] at h

/-- Witness for C5: a concrete bare-selector emitter whose callback emits the
new value with the module name as metadata. -/
theorem storeEmitter_callback_spec_witness :
    ∃ w, (registerStoreEmittersFn "searchBox" none []
        [("QueryChanged", .simple sampleSelector)]).watchers = [w] ∧
      w.callback (.vStr "pizza") .vNull
        = some ⟨"QueryChanged", .vStr "pizza", some ⟨"searchBox"⟩⟩ := by
  obtain ⟨w, hw, hcb, hdef, hsimple⟩ :=
    storeEmitter_callback_spec "searchBox" "QueryChanged"
      (.simple sampleSelector) []
  refine ⟨w, hw, ?_⟩
  rw [hcb]
  simp [destructureSelector, defaultIsDifferent]

/-- C6: a store emitter with immediate set schedules exactly one deferred
(microtask) emission of the selector's value read from the current store
state, carrying no metadata, and performs no emission synchronously during
registration; an emitter without immediate schedules nothing (its only
emissions come from the watch callback, i.e. from state changes). -/
theorem storeEmitter_immediate_spec (name event : String) (sel : StateSelector)
    (proxy : Getters) :
    (registerStoreEmittersFn name none proxy [(event, sel)]).syncEmissions = [] ∧
    ((destructureSelector sel).immediate = true →
      (registerStoreEmittersFn name none proxy [(event, sel)]).scheduledTasks
        = [mkScheduledTask name proxy event (destructureSelector sel)] ∧
      (mkScheduledTask name proxy event (destructureSelector sel)).metadata
        = none ∧
      ∀ sx, (mkScheduledTask name proxy event (destructureSelector sel)).payloadOf
          sx
        = (destructureSelector sel).selector
            ((lookupField sx name).getD .vUndefined) proxy) ∧
    ((destructureSelector sel).immediate = false →
      (registerStoreEmittersFn name none proxy [(event, sel)]).scheduledTasks
        = []) := by
  refine ⟨rfl, ?_, ?_⟩
  · intro h
    refine ⟨?_, rfl, fun sx => rfl⟩
    simp [registerStoreEmittersFn, h]
  · intro h
    simp [registerStoreEmittersFn, h]

/-- Witness for C6: a concrete emitter with immediate set schedules exactly
the one metadata-free deferred emission, and the same emitter without the flag
schedules none. -/
theorem storeEmitter_immediate_spec_witness :
    (registerStoreEmittersFn "searchBox" none []
        [("QueryChanged", .complex sampleSelector (some true) none
          [])]).syncEmissions = [] ∧
    (registerStoreEmittersFn "searchBox" none []
        [("QueryChanged", .complex sampleSelector (some true) none
          [])]).scheduledTasks
      = [mkScheduledTask "searchBox" [] "QueryChanged"
          (destructureSelector (.complex sampleSelector (some true) none []))] ∧
    (mkScheduledTask "searchBox" [] "QueryChanged"
        (destructureSelector
          (.complex sampleSelector (some true) none []))).metadata = none ∧
    (registerStoreEmittersFn "searchBox" none []
        [("QueryChanged", .simple sampleSelector)]).scheduledTasks = [] := by
  obtain ⟨h1, h2, h3⟩ := storeEmitter_immediate_spec "searchBox" "QueryChanged"
    (.complex sampleSelector (some true) none []) []
  obtain ⟨ha, hb, hc⟩ := h2 rfl
  obtain ⟨h1', h2', h3'⟩ := storeEmitter_immediate_spec "searchBox"
    "QueryChanged" (.simple sampleSelector) []
  exact ⟨h1, ha, hb, h3' rfl⟩

/-! ### Facts about the synthesized config mutation -/

theorem lookupField_assignFields_not_mem (uf : List (String × JSValue)) :
    ∀ (cf : List (String × JSValue)) (k : String), lookupField uf k = none →
    lookupField (assignFields cf uf) k = lookupField cf k := by
  induction uf with
  | nil => intro cf k _; rfl
  | cons e rest ih =>
    intro cf k h
    obtain ⟨k₀, v₀⟩ := e
    have hne : k₀ ≠ k := by
      intro hk
      simp [lookupField, hk] at h
    simp only [lookupField, hne, if_false, if_neg hne] at h
    show lookupField (assignFields (setField cf k₀ v₀) rest) k = lookupField cf k
    rw [ih _ k h, lookupField_setField_other _ _ _ _ (Ne.symm hne)]

theorem lookupField_assignFields_mem (uf : List (String × JSValue)) :
    ∀ (cf : List (String × JSValue)) (k : String) (v : JSValue),
    keysNodupB uf = true → lookupField uf k = some v →
    lookupField (assignFields cf uf) k = some v := by
  induction uf with
  | nil => intro cf k v _ h; simp [lookupField] at h
  | cons e rest ih =>
    intro cf k v hnd h
    obtain ⟨k₀, v₀⟩ := e
    have hnd' : (lookupField rest k₀).isNone = true ∧ keysNodupB rest = true := by
      simpa [keysNodupB] using hnd
    by_cases hk : k₀ = k
    · subst hk
      simp [lookupField] at h
      subst h
      show lookupField (assignFields (setField cf k₀ v₀) rest) k₀ = some v₀
      rw [lookupField_assignFields_not_mem rest _ k₀
        (Option.isNone_iff_eq_none.mp hnd'.1), lookupField_setField_self]
    · simp [lookupField, hk] at h
      show lookupField (assignFields (setField cf k₀ v₀) rest) k = some v
      exact ih _ k v hnd'.2 h

theorem hasModuleConfig_eq (m : StoreModule) :
    hasModuleConfig m = (getFieldD (evalState m.state) "config").truthy := by
  rcases hs : m.state with s | s <;> simp [hasModuleConfig, evalState, hs]

theorem addConfigMutation_preserves (f : Nat) (x : StoreModule) :
    (addConfigMutation f x).objId = x.objId ∧
    (addConfigMutation f x).namespaced = x.namespaced ∧
    (addConfigMutation f x).state = x.state := by
  by_cases h : hasModuleConfig x
  · rcases hm : x.mutations with _ | md
    · simp [addConfigMutation, h, hm]
    · by_cases hsc : (lookupField md.entries "setConfig").isNone <;>
        simp [addConfigMutation, h, hm, hsc]
  · simp [addConfigMutation, h]

/-- The state fields of a module whose config key is present but falsy. -/
def falsyConfigStateFields : List (String × JSValue) := [("config", .vBool false)]

/-- A store module whose state contains a config key bound to a falsy value
and whose mutations lack a setConfig entry. -/
def falsyConfigModule : StoreModule :=
  { objId := 20
    namespaced := false
    state := .obj (.vObj 21 falsyConfigStateFields)
    getters := []
    mutations := some (MutDict.mk 22 [])
    actions := [] }

/-- Counterexample to C4 as stated: this module's state contains a config key
and its mutations lack a setConfig entry, yet addConfigMutation synthesizes
nothing (the source checks the truthiness of state.config, not the presence of
the key: !!storeModule.state.config). -/
theorem addConfigMutation_counterexample :
    falsyConfigModule.state = .obj (.vObj 21 falsyConfigStateFields) ∧
    lookupField falsyConfigStateFields "config" = some (.vBool false) ∧
    falsyConfigModule.mutations = some (MutDict.mk 22 []) ∧
    lookupField (MutDict.mk 22 ([] : List (String × MutationDef))).entries
      "setConfig" = none ∧
    addConfigMutation 99 falsyConfigModule = falsyConfigModule :=
  ⟨rfl, rfl, rfl, rfl, rfl⟩

/-- C4 (amended: the source conditions on a truthy config value, not on the
mere presence of a config key): for every store module, if its state's config
entry is truthy and its mutations lack a setConfig entry, a setConfig mutation
is synthesized (into a new dictionary when the module had none, appended to
the module's own dictionary otherwise) that shallow-assigns the fields of the
new config onto the existing state.config object; if the module already
defines setConfig, or its state has no truthy config value, no mutation is
added or replaced. -/
theorem addConfigMutation_spec (freshId : Nat) (m : StoreModule) :
    ((getFieldD (evalState m.state) "config").truthy = false →
      addConfigMutation freshId m = m) ∧
    ((getFieldD (evalState m.state) "config").truthy = true →
      (m.mutations = none →
        addConfigMutation freshId m
          = { m with mutations := some (MutDict.mk freshId
              [("setConfig", .defaultSetConfig)]) }) ∧
      (∀ md, m.mutations = some md →
        (lookupField md.entries "setConfig" = none →
          addConfigMutation freshId m
            = { m with mutations := some (MutDict.mk md.objId
                (md.entries ++ [("setConfig", .defaultSetConfig)])) }) ∧
        (∀ mu, lookupField md.entries "setConfig" = some mu →
          addConfigMutation freshId m = m))) ∧
    (∀ (sid cid uid : Nat) (fields cf uf : List (String × JSValue)),
      lookupField fields "config" = some (.vObj cid cf) →
      defaultSetConfigMutation (.vObj sid fields) (.vObj uid uf)
        = .vObj sid (setField fields "config" (.vObj cid (assignFields cf uf))) ∧
      (∀ k v, keysNodupB uf = true → lookupField uf k = some v →
        lookupField (assignFields cf uf) k = some v) ∧
      (∀ k, lookupField uf k = none →
        lookupField (assignFields cf uf) k = lookupField cf k)) := by
  refine ⟨?_, ?_, ?_⟩
  · intro h
    simp [addConfigMutation, hasModuleConfig_eq, h]
  · intro h
    refine ⟨?_, ?_⟩
    · intro hnone
      simp [addConfigMutation, hasModuleConfig_eq, h, hnone]
    · intro md hmd
      refine ⟨?_, ?_⟩
      · intro hlack
        have hsf := setField_of_not_mem md.entries "setConfig"
          MutationDef.defaultSetConfig hlack
        simp [addConfigMutation, hasModuleConfig_eq, h, hmd, hlack, hsf]
      · intro mu hmu
        simp [addConfigMutation, hasModuleConfig_eq, h, hmd, hmu]
  · intro sid cid uid fields cf uf hcf
    refine ⟨?_, ?_, ?_⟩
    · simp [defaultSetConfigMutation, hcf, objAssign]
    · exact fun k v hnd hv => lookupField_assignFields_mem uf cf k v hnd hv
    · exact fun k hk => lookupField_assignFields_not_mem uf cf k hk

/-- Witness for C4 at concrete inputs: the sample store module (truthy config
object, no user setConfig) receives exactly the appended synthesized mutation,
and the synthesized mutation's shallow assignment overwrites an updated field
while keeping an untouched one. -/
theorem addConfigMutation_spec_witness :
    addConfigMutation 77 sampleModule.storeModule
      = { sampleModule.storeModule with mutations := some (MutDict.mk 13
          [("setQuery", .custom 1), ("setConfig", .defaultSetConfig)]) } ∧
    defaultSetConfigMutation
        (.vObj 11 [("query", .vStr ""),
          ("config", .vObj 12 [("debounce", .vNum 500)])])
        (.vObj 40 [("debounce", .vNum 250)])
      = .vObj 11 (setField [("query", .vStr ""),
          ("config", .vObj 12 [("debounce", .vNum 500)])] "config"
          (.vObj 12 (assignFields [("debounce", .vNum 500)]
            [("debounce", .vNum 250)]))) ∧
    lookupField (assignFields [("debounce", .vNum 500)]
        [("debounce", .vNum 250)]) "debounce" = some (.vNum 250) := by
  obtain ⟨hfalse, htrue, hsem⟩ := addConfigMutation_spec 77 sampleModule.storeModule
  obtain ⟨heq, hmem, hnotmem⟩ := hsem 11 12 40
    [("query", .vStr ""), ("config", .vObj 12 [("debounce", .vNum 500)])]
    [("debounce", .vNum 500)] [("debounce", .vNum 250)] rfl
  refine ⟨?_, heq, ?_⟩
  · have h := ((htrue rfl).2 (MutDict.mk 13 [("setQuery", .custom 1)]) rfl).1 rfl
    simpa using h
  · exact hmem "debounce" (.vNum 250) rfl rfl

/-! ### Facts about registerStoreModule mutating the descriptor in place -/

/-- The state fields of another falsy-config module. -/
def nullConfigStateFields : List (String × JSValue) := [("config", .vNull)]

/-- A module descriptor whose state has a config key bound to null and a
mutations dictionary without setConfig. -/
def nullConfigModule : StoreModule :=
  { objId := 30
    namespaced := false
    state := .obj (.vObj 31 nullConfigStateFields)
    getters := []
    mutations := some (MutDict.mk 32 [("setFoo", .custom 3)])
    actions := [] }

/-- Counterexample to C9 as stated: with no override, this descriptor's state
has a config key and its mutations lack setConfig, yet registration inserts no
setConfig mutation (it only flips namespaced), because the source conditions
on the truthiness of state.config. -/
theorem registerStoreModule_counterexample :
    lookupField nullConfigStateFields "config" = some .vNull ∧
    lookupField (MutDict.mk 32 [("setFoo", MutationDef.custom 3)]).entries
      "setConfig" = none ∧
    registerStoreModuleFn [] 50 "histories" nullConfigModule
      = { nullConfigModule with namespaced := true } ∧
    (registerStoreModuleFn [] 50 "histories" nullConfigModule).mutations
      = some (MutDict.mk 32 [("setFoo", MutationDef.custom 3)]) :=
  ⟨rfl, rfl, rfl, rfl⟩

/-- C9 (amended: the config clause conditions on a truthy config value, as the
source does): with no user-supplied storeModule override, registration mutates
the caller-supplied descriptor in place — the returned (registered) module is
the same object (same identity, same state) with namespaced set to true, and
when its state has a truthy config value and its mutations lack setConfig, the
synthesized mutation is appended to the descriptor's own mutations object
(same dictionary identity). -/
theorem registerStoreModule_in_place (xmOpts : List (String × XModuleOptions))
    (freshId : Nat) (name : String) (m : StoreModule)
    (hno : (lookupField xmOpts name).bind (·.storeModule) = none) :
    (registerStoreModuleFn xmOpts freshId name m).objId = m.objId ∧
    (registerStoreModuleFn xmOpts freshId name m).namespaced = true ∧
    (registerStoreModuleFn xmOpts freshId name m).state = m.state ∧
    (∀ md, m.mutations = some md →
      (getFieldD (evalState m.state) "config").truthy = true →
      lookupField md.entries "setConfig" = none →
      (registerStoreModuleFn xmOpts freshId name m).mutations
        = some (MutDict.mk md.objId
            (md.entries ++ [("setConfig", .defaultSetConfig)]))) := by
  have hunfold : registerStoreModuleFn xmOpts freshId name m
      = addConfigMutation (freshId + 2) { m with namespaced := true } := by
    simp [registerStoreModuleFn, hno]
  obtain ⟨h1, h2, h3⟩ := addConfigMutation_preserves (freshId + 2)
    { m with namespaced := true }
  refine ⟨by rw [hunfold]; exact h1, by rw [hunfold]; exact h2,
    by rw [hunfold]; exact h3, ?_⟩
  intro md hmd htr hlack
  rw [hunfold]
  have hcfg : (getFieldD (evalState ({ m with namespaced := true }).state)
      "config").truthy = true := htr
  have := (((addConfigMutation_spec (freshId + 2)
    { m with namespaced := true }).2.1 hcfg).2 md hmd).1 hlack
  rw [this]

/-- Witness for C9: registering the sample descriptor with no override keeps
its identity and its mutations object's identity, flips namespaced, and
appends the synthesized setConfig. -/
theorem registerStoreModule_in_place_witness :
    (registerStoreModuleFn [] 60 "searchBox" sampleModule.storeModule).objId
      = 10 ∧
    (registerStoreModuleFn [] 60 "searchBox"
      sampleModule.storeModule).namespaced = true ∧
    (registerStoreModuleFn [] 60 "searchBox" sampleModule.storeModule).mutations
      = some (MutDict.mk 13
          [("setQuery", .custom 1), ("setConfig", .defaultSetConfig)]) := by
  obtain ⟨h1, h2, h3, h4⟩ := registerStoreModule_in_place [] 60 "searchBox"
    sampleModule.storeModule rfl
  refine ⟨by simpa using h1, h2, ?_⟩
  have h := h4 (MutDict.mk 13 [("setQuery", .custom 1)]) rfl rfl rfl
  simpa using h

/-! ### Facts about the pending-modules queue -/

theorem setField_twice {β : Type} (l : List (String × β)) (k : String)
    (v1 v2 : β) : setField (setField l k v1) k v2 = setField l k v2 := by
  induction l with
  | nil => simp [setField]
  | cons hd tl ih =>
    obtain ⟨k₀, v₀⟩ := hd
    by_cases h : k₀ = k <;> simp [setField, h, ih]

theorem lookupField_isSome_of_mem {β : Type} (l : List (String × β))
    (e : String × β) (h : e ∈ l) : (lookupField l e.1).isSome = true := by
  induction l with
  | nil => cases h
  | cons hd tl ih =>
    obtain ⟨k₀, v₀⟩ := hd
    by_cases hk : k₀ = e.1
    · simp [lookupField, hk]
    · rcases List.mem_cons.mp h with rfl | h'
      · simp at hk
      · simp only [lookupField, hk, if_false, if_neg hk]
        exact ih h'

/-- Draining a queue none of whose keys is k leaves the count of k-keyed store
module registrations unchanged. -/
theorem drain_count_not_mem (rest : List (String × XModule)) :
    ∀ (self : PluginInstance) (k : String),
    (∀ e ∈ rest, e.2.name = e.1) → lookupField rest k = none →
    countKey (registerPendingXModulesStep self rest).registeredStoreModules k
      = countKey self.registeredStoreModules k := by
  induction rest with
  | nil => intro self k _ _; rfl
  | cons hd rest' ih =>
    intro self k hnames hnone
    obtain ⟨k₀, m⟩ := hd
    have hname : m.name = k₀ := hnames _ (List.mem_cons_self _ _)
    have hne : k₀ ≠ k := by
      intro hk
      simp [lookupField, hk] at hnone
    simp only [lookupField, hne, if_false, if_neg hne] at hnone
    have hstep : registerPendingXModulesStep self ((k₀, m) :: rest')
        = registerPendingXModulesStep (self.registerXModule m) rest' := by
      simp [registerPendingXModulesStep]
    rw [hstep, ih (self.registerXModule m) k
      (fun e he => hnames e (List.mem_cons_of_mem _ he)) hnone]
    by_cases hmem : m.name ∈ self.installedXModules
    · rw [registerXModule_of_mem self m hmem]
    · obtain ⟨sm, hsm⟩ := storeModules_registerXModule_of_not_mem self m hmem
      rw [hsm, countKey_append_other _ _ _ _ (hname ▸ hne)]

/-- Draining preserves membership in the installed set. -/
theorem drain_mem_installed (rest : List (String × XModule)) :
    ∀ (self : PluginInstance) (a : String), a ∈ self.installedXModules →
    a ∈ (registerPendingXModulesStep self rest).installedXModules := by
  induction rest with
  | nil => intro self a h; exact h
  | cons hd rest' ih =>
    intro self a h
    have hstep : registerPendingXModulesStep self (hd :: rest')
        = registerPendingXModulesStep (self.registerXModule hd.2) rest' := by
      simp [registerPendingXModulesStep]
    rw [hstep]
    exact ih _ a (mem_installed_registerXModule self hd.2 a h)

/-- Each entry of a fresh, nodup-keyed queue is registered exactly once by the
drain. -/
theorem drain_registers_each (pending : List (String × XModule)) :
    ∀ self : PluginInstance,
    keysNodupB pending = true →
    (∀ e ∈ pending, e.2.name = e.1) →
    (∀ e ∈ pending, e.1 ∉ self.installedXModules) →
    ∀ e ∈ pending,
      countKey (registerPendingXModulesStep self pending).registeredStoreModules
          e.1
        = countKey self.registeredStoreModules e.1 + 1 ∧
      e.1 ∈ (registerPendingXModulesStep self pending).installedXModules := by
  induction pending with
  | nil => intro self _ _ _ e he; cases he
  | cons hd rest ih =>
    intro self hnd hnames hfresh e he
    obtain ⟨k₀, m⟩ := hd
    have hname : m.name = k₀ := hnames _ (List.mem_cons_self _ _)
    have hnd' : (lookupField rest k₀).isNone = true ∧ keysNodupB rest = true := by
      simpa [keysNodupB] using hnd
    have hfresh₀ : k₀ ∉ self.installedXModules :=
      hfresh _ (List.mem_cons_self _ _)
    obtain ⟨sm, hsm⟩ := storeModules_registerXModule_of_not_mem self m
      (hname ▸ hfresh₀)
    have hinst1 : (self.registerXModule m).installedXModules
        = m.name :: self.installedXModules :=
      installed_registerXModule_of_not_mem self m (hname ▸ hfresh₀)
    have hstep : registerPendingXModulesStep self ((k₀, m) :: rest)
        = registerPendingXModulesStep (self.registerXModule m) rest := by
      simp [registerPendingXModulesStep]
    rcases List.mem_cons.mp he with rfl | he'
    · rw [hstep]
      constructor
      · rw [drain_count_not_mem rest (self.registerXModule m) k₀
          (fun e' he' => hnames e' (List.mem_cons_of_mem _ he'))
          (Option.isNone_iff_eq_none.mp hnd'.1), hsm, hname,
          countKey_append_same]
      · apply drain_mem_installed
        rw [hinst1, hname]
        exact List.mem_cons_self _ _
    · have hne : e.1 ≠ k₀ := by
        intro hcontra
        have hs := lookupField_isSome_of_mem rest e he'
        rw [hcontra, Option.isNone_iff_eq_none.mp hnd'.1] at hs
        cases hs
      have hfr : ∀ e' ∈ rest, e'.1 ∉ (self.registerXModule m).installedXModules := by
        intro e' he''
        rw [hinst1, hname]
        intro hcontra
        rcases List.mem_cons.mp hcontra with h₁ | h₁
        · have hs := lookupField_isSome_of_mem rest e' he''
          rw [h₁, Option.isNone_iff_eq_none.mp hnd'.1] at hs
          cases hs
        · exact hfresh e' (List.mem_cons_of_mem _ he'') h₁
      have hrec := ih (self.registerXModule m) hnd'.2
        (fun e' he'' => hnames e' (List.mem_cons_of_mem _ he'')) hfr e he'
      rw [hstep]
      refine ⟨?_, hrec.2⟩
      rw [hrec.1, hsm, countKey_append_other _ _ _ _ (hname ▸ Ne.symm hne)]

/-- C7: before the plugin is installed, each module-registration request is
queued keyed by module name with the last request for a name overwriting
earlier ones; on install the queue is drained — each queued name registered
exactly once via the per-module procedure — and then reset. -/
theorem pendingModules_spec :
    (∀ (w : World) (m : XModule), w.inst = none →
      staticRegisterXModule w m
        = { w with pendingXModules := setField w.pendingXModules m.name m }) ∧
    (∀ (pend : List (String × XModule)) (m1 m2 : XModule), m2.name = m1.name →
      setField (setField pend m1.name m1) m2.name m2
        = setField pend m1.name m2) ∧
    (∀ (pending : List (String × XModule)) (self : PluginInstance),
      keysNodupB pending = true → (∀ e ∈ pending, e.2.name = e.1) →
      (∀ e ∈ pending, e.1 ∉ self.installedXModules) →
      ∀ e ∈ pending,
        countKey
            (registerPendingXModulesStep self pending).registeredStoreModules
            e.1
          = countKey self.registeredStoreModules e.1 + 1 ∧
        e.1 ∈ (registerPendingXModulesStep self pending).installedXModules) ∧
    (∀ (self : PluginInstance) (opts : Option XPluginOptions) (w w' : World),
      install self opts none w = (.ok (), w') → w'.pendingXModules = []) := by
  refine ⟨?_, ?_, ?_, ?_⟩
  · intro w m h
    simp [staticRegisterXModule, lazyRegisterXModule, h]
  · intro pend m1 m2 h12
    rw [h12]
    exact setField_twice pend m1.name m1 m2
  · exact fun pending self hnd hnames hfresh =>
      drain_registers_each pending self hnd hnames hfresh
  · intro self opts w w' h
    obtain ⟨_, _, _, _, _, _, _, _, _, hp⟩ := install_ok_shape self opts none w w' h
    exact hp

/-- Witness for C7 at concrete inputs: queueing on the empty world stores the
module under its name, re-queueing overwrites, draining a one-entry queue
registers that name exactly once, and a concrete successful install resets the
queue. -/
theorem pendingModules_spec_witness :
    staticRegisterXModule emptyWorld sampleModule
      = { emptyWorld with
          pendingXModules := setField [] "searchBox" sampleModule } ∧
    setField (setField ([] : List (String × XModule)) "searchBox" sampleModule)
        "searchBox" sampleModule
      = setField [] "searchBox" sampleModule ∧
    (countKey (registerPendingXModulesStep (mkPluginInstance 0)
        [("searchBox", sampleModule)]).registeredStoreModules "searchBox"
        = 0 + 1 ∧
      "searchBox" ∈ (registerPendingXModulesStep (mkPluginInstance 0)
        [("searchBox", sampleModule)]).installedXModules) ∧
    ((install (mkPluginInstance 2) (some sampleOptions) none
        { inst := none,
          pendingXModules := [("searchBox", sampleModule)] }).2).pendingXModules
      = [] := by
  obtain ⟨p1, p2, p3, p4⟩ := pendingModules_spec
  refine ⟨p1 emptyWorld sampleModule rfl,
    p2 [] sampleModule sampleModule rfl, ?_, ?_⟩
  · have h := p3 [("searchBox", sampleModule)] (mkPluginInstance 0) rfl
      (by intro e he; simp only [List.mem_singleton] at he; subst he; rfl)
      (by intro e he; simp only [List.mem_singleton] at he; subst he
          simp [mkPluginInstance])
      ("searchBox", sampleModule) (List.mem_singleton.mpr rfl)
    exact ⟨h.1, h.2⟩
  · exact p4 (mkPluginInstance 2) (some sampleOptions) _ _ (Prod.ext rfl rfl)

/-! ### Facts about the deep merge of config updates -/

theorem untouchedFieldsB_eq (sf : List (String × JSValue)) (k : String)
    (p : List String) :
    untouchedFieldsB sf k p = (match lookupField sf k with
      | none => true
      | some v => untouchedB v p) := by
  induction sf with
  | nil => simp [untouchedFieldsB]
  | cons hd fs ih =>
    obtain ⟨k', v⟩ := hd
    by_cases h : k' = k <;> simp [untouchedFieldsB, lookupField, h, ih]

theorem wfFieldsB_lookup (sf : List (String × JSValue)) :
    ∀ (k : String) (v : JSValue), wfFieldsB sf = true →
    lookupField sf k = some v → wfB v = true := by
  induction sf with
  | nil => intro k v _ h; simp at h
  | cons hd fs ih =>
    obtain ⟨k', v'⟩ := hd
    intro k v hwf h
    have hwf' : wfB v' = true ∧ wfFieldsB fs = true := by
      simpa [wfFieldsB, Bool.and_eq_true] using hwf
    by_cases hk : k' = k
    · simp [lookupField, hk] at h
      exact h ▸ hwf'.1
    · simp [lookupField, hk] at h
      exact ih k v hwf'.2 h

theorem lookupField_mergeFields (sf : List (String × JSValue)) :
    ∀ (tf : List (String × JSValue)) (k : String), keysNodupB sf = true →
    lookupField (mergeFields tf sf) k
      = (match lookupField sf k with
        | none => lookupField tf k
        | some sv => some (mergeValue (lookupField tf k) sv)) := by
  induction sf with
  | nil => intro tf k _; simp [mergeFields]
  | cons hd rest ih =>
    obtain ⟨k₀, sv₀⟩ := hd
    intro tf k hnd
    have hnd' : (lookupField rest k₀).isNone = true ∧ keysNodupB rest = true := by
      simpa [keysNodupB, Bool.and_eq_true] using hnd
    have hstep : mergeFields tf ((k₀, sv₀) :: rest)
        = mergeFields (setField tf k₀ (mergeValue (lookupField tf k₀) sv₀))
            rest := by
      simp [mergeFields]
    by_cases hk : k₀ = k
    · subst hk
      have h0 : lookupField rest k₀ = none :=
        Option.isNone_iff_eq_none.mp hnd'.1
      rw [hstep, ih _ k₀ hnd'.2]
      simp [h0, lookupField_setField_self, lookupField]
    · have hso := lookupField_setField_other tf k₀ k
        (mergeValue (lookupField tf k₀) sv₀) (Ne.symm hk)
      rw [hstep, ih _ k hnd'.2]
      simp [lookupField, hk, hso]

/-- deepMerge with a non-object target replaces it with the source. -/
theorem deepMerge_non_obj_left (t u : JSValue) (ht : t.isObj = false) :
    deepMerge t u = u := by
  cases t <;> cases u <;> simp [deepMerge, JSValue.isObj] at ht ⊢

/-- deepMerge with a non-object source replaces the target with it. -/
theorem deepMerge_non_obj_right (t u : JSValue) (hu : u.isObj = false) :
    deepMerge t u = u := by
  cases t <;> cases u <;> simp [deepMerge, JSValue.isObj] at hu ⊢

theorem getPath_eq_none_of_untouched (p : List String) :
    ∀ v : JSValue, untouchedB v p = true → getPath v p = none := by
  induction p with
  | nil => intro v h; simp [untouchedB] at h
  | cons k rest ih =>
    intro v h
    cases v with
    | vObj i sf =>
      have h' : untouchedFieldsB sf k rest = true := by
        simpa [untouchedB] using h
      cases hl : lookupField sf k with
      | none => simp [getPath, hl]
      | some sv =>
        have husv : untouchedB sv rest = true := by
          simpa [untouchedFieldsB_eq, hl] using h'
        simp [getPath, hl, ih sv husv]
    | vUndefined => rfl
    | vNull => rfl
    | vBool b => rfl
    | vNum n => rfl
    | vStr s => rfl

theorem getPath_deepMerge_of_untouched (p : List String) :
    ∀ (t u : JSValue), wfB u = true → untouchedB u p = true →
    getPath (deepMerge t u) p = getPath t p := by
  induction p with
  | nil => intro t u _ h; simp [untouchedB] at h
  | cons k rest ih =>
    intro t u hwf hu
    cases u with
    | vObj uid sf =>
      have hu' : untouchedFieldsB sf k rest = true := by
        simpa [untouchedB] using hu
      obtain ⟨hnd, hwff⟩ : keysNodupB sf = true ∧ wfFieldsB sf = true := by
        simpa [wfB, Bool.and_eq_true] using hwf
      cases t with
      | vObj tid tf =>
        have hml := lookupField_mergeFields sf tf k hnd
        cases hl : lookupField sf k with
        | none =>
          simp only [hl] at hml
          simp [deepMerge, getPath, hml]
        | some sv =>
          have husv : untouchedB sv rest = true := by
            simpa [untouchedFieldsB_eq, hl] using hu'
          have hwsv : wfB sv = true := wfFieldsB_lookup sf k sv hwff hl
          simp only [hl] at hml
          cases htf : lookupField tf k with
          | none =>
            simp only [htf] at hml
            simp [deepMerge, getPath, hml, mergeValue, htf,
              getPath_eq_none_of_untouched rest sv husv]
          | some tv =>
            simp only [htf] at hml
            simp [deepMerge, getPath, hml, mergeValue, htf,
              ih tv sv hwsv husv]
      | vUndefined =>
        rw [deepMerge_non_obj_left JSValue.vUndefined (JSValue.vObj uid sf) rfl,
          getPath_eq_none_of_untouched (k :: rest) (JSValue.vObj uid sf) hu]
        rfl
      | vNull =>
        rw [deepMerge_non_obj_left JSValue.vNull (JSValue.vObj uid sf) rfl,
          getPath_eq_none_of_untouched (k :: rest) (JSValue.vObj uid sf) hu]
        rfl
      | vBool b =>
        rw [deepMerge_non_obj_left (JSValue.vBool b) (JSValue.vObj uid sf) rfl,
          getPath_eq_none_of_untouched (k :: rest) (JSValue.vObj uid sf) hu]
        rfl
      | vNum n =>
        rw [deepMerge_non_obj_left (JSValue.vNum n) (JSValue.vObj uid sf) rfl,
          getPath_eq_none_of_untouched (k :: rest) (JSValue.vObj uid sf) hu]
        rfl
      | vStr s =>
        rw [deepMerge_non_obj_left (JSValue.vStr s) (JSValue.vObj uid sf) rfl,
          getPath_eq_none_of_untouched (k :: rest) (JSValue.vObj uid sf) hu]
        rfl
    | vUndefined => simp [untouchedB] at hu
    | vNull => simp [untouchedB] at hu
    | vBool b => simp [untouchedB] at hu
    | vNum n => simp [untouchedB] at hu
    | vStr s => simp [untouchedB] at hu

theorem getPath_deepMerge_of_leaf (p : List String) :
    ∀ (t u v : JSValue), wfB u = true → getPath u p = some v →
    v.isObj = false → getPath (deepMerge t u) p = some v := by
  induction p with
  | nil =>
    intro t u v hwf hp hleaf
    have hu : u = v := by simpa [getPath] using hp
    subst hu
    rw [deepMerge_non_obj_right t u hleaf]
    simp [getPath]
  | cons k rest ih =>
    intro t u v hwf hp hleaf
    cases u with
    | vObj uid sf =>
      obtain ⟨hnd, hwff⟩ : keysNodupB sf = true ∧ wfFieldsB sf = true := by
        simpa [wfB, Bool.and_eq_true] using hwf
      cases hl : lookupField sf k with
      | none => simp [getPath, hl] at hp
      | some sv =>
        have hpsv : getPath sv rest = some v := by
          simpa [getPath, hl] using hp
        have hwsv : wfB sv = true := wfFieldsB_lookup sf k sv hwff hl
        cases t with
        | vObj tid tf =>
          have hml := lookupField_mergeFields sf tf k hnd
          simp only [hl] at hml
          cases htf : lookupField tf k with
          | none =>
            simp only [htf] at hml
            simp [deepMerge, getPath, hml, mergeValue, hpsv]
          | some tv =>
            simp only [htf] at hml
            simp [deepMerge, getPath, hml, mergeValue,
              ih tv sv v hwsv hpsv hleaf]
        | vUndefined =>
          rw [deepMerge_non_obj_left JSValue.vUndefined (JSValue.vObj uid sf) rfl]
          simp [getPath, hl, hpsv]
        | vNull =>
          rw [deepMerge_non_obj_left JSValue.vNull (JSValue.vObj uid sf) rfl]
          simp [getPath, hl, hpsv]
        | vBool b =>
          rw [deepMerge_non_obj_left (JSValue.vBool b) (JSValue.vObj uid sf) rfl]
          simp [getPath, hl, hpsv]
        | vNum n =>
          rw [deepMerge_non_obj_left (JSValue.vNum n) (JSValue.vObj uid sf) rfl]
          simp [getPath, hl, hpsv]
        | vStr s =>
          rw [deepMerge_non_obj_left (JSValue.vStr s) (JSValue.vObj uid sf) rfl]
          simp [getPath, hl, hpsv]
    | vUndefined => simp [getPath] at hp
    | vNull => simp [getPath] at hp
    | vBool b => simp [getPath] at hp
    | vNum n => simp [getPath] at hp
    | vStr s => simp [getPath] at hp

/-- C8: setConfig deep-merges the partial update into the live config object
in place: the config keeps its identity, every field of the old config whose
path the update does not mention keeps its value (at every nesting depth), and
every leaf field present in the update takes the updated value. -/
theorem setConfig_spec (self : PluginInstance) (cid : Nat)
    (cf : List (String × JSValue)) (u : JSValue)
    (hc : self.xConfig = some (.vObj cid cf))
    (hu : u.isObj = true) (hwf : wfB u = true) :
    (self.setConfig u).xConfig = some (deepMerge (.vObj cid cf) u) ∧
    (deepMerge (.vObj cid cf) u).objIdOf = some cid ∧
    (∀ p, untouchedB u p = true →
      getPath (deepMerge (.vObj cid cf) u) p = getPath (.vObj cid cf) p) ∧
    (∀ p v, getPath u p = some v → v.isObj = false →
      getPath (deepMerge (.vObj cid cf) u) p = some v) := by
  refine ⟨?_, ?_, ?_, ?_⟩
  · simp [PluginInstance.setConfig, hc]
  · cases u with
    | vObj uid uf => simp [deepMerge, JSValue.objIdOf]
    | vUndefined => simp [JSValue.isObj] at hu
    | vNull => simp [JSValue.isObj] at hu
    | vBool b => simp [JSValue.isObj] at hu
    | vNum n => simp [JSValue.isObj] at hu
    | vStr s => simp [JSValue.isObj] at hu
  · exact fun p hp => getPath_deepMerge_of_untouched p _ u hwf hp
  · exact fun p v hp hleaf => getPath_deepMerge_of_leaf p _ u v hwf hp hleaf

/-- The nested config object a witness instance starts from. -/
def witnessConfig : JSValue :=
  .vObj 1 [("a", .vObj 2 [("x", .vNum 1), ("y", .vNum 2)]), ("b", .vNum 3)]

/-- A partial config update touching only the a.y leaf. -/
def witnessUpdate : JSValue := .vObj 9 [("a", .vObj 8 [("y", .vNum 20)])]

/-- Witness for C8 at concrete values: updating a.y keeps the config object's
identity, preserves the untouched a.x and b fields, and overwrites a.y. -/
theorem setConfig_spec_witness :
    ({ mkPluginInstance 0 with xConfig := some witnessConfig }.setConfig
        witnessUpdate).xConfig
      = some (deepMerge witnessConfig witnessUpdate) ∧
    (deepMerge witnessConfig witnessUpdate).objIdOf = some 1 ∧
    getPath (deepMerge witnessConfig witnessUpdate) ["a", "x"]
      = some (.vNum 1) ∧
    getPath (deepMerge witnessConfig witnessUpdate) ["b"] = some (.vNum 3) ∧
    getPath (deepMerge witnessConfig witnessUpdate) ["a", "y"]
      = some (.vNum 20) := by
  obtain ⟨h1, h2, h3, h4⟩ := setConfig_spec
    { mkPluginInstance 0 with xConfig := some witnessConfig } 1
    [("a", .vObj 2 [("x", .vNum 1), ("y", .vNum 2)]), ("b", .vNum 3)]
    witnessUpdate rfl rfl
    (by simp [witnessUpdate, wfB, wfFieldsB, keysNodupB, lookupField])
  refine ⟨h1, h2, ?_, ?_, ?_⟩
  · simp only [witnessConfig]
    rw [h3 ["a", "x"] (by simp [witnessUpdate, untouchedB, untouchedFieldsB,
      lookupField])]
    rfl
  · simp only [witnessConfig]
    rw [h3 ["b"] (by simp [witnessUpdate, untouchedB, untouchedFieldsB,
      lookupField])]
    rfl
  · simp only [witnessConfig]
    exact h4 ["a", "y"] (.vNum 20)
      (by simp [witnessUpdate, getPath, lookupField]) rfl

end XComponents
